import Mathlib

/-!
Verification of the poster-assembly core of `posterAssembly.py`
(passport-covers-of-the-world).

The program composes a grid poster out of passport-cover tiles using the
PIL imaging library.  We embed it shallowly: every PIL image value is a
`Canvas`, a term of an inductive type that records exactly the sequence of
compositing operations the Python code performs (`Image.new`, `paste` with
or without an alpha mask, `draw.text`, `resize`, `crop`, `Image.open`).
Width, height and mode of a canvas are computed by structural recursion,
mirroring PIL's documented size semantics (`crop` box `(l, t, r, b)` has
size `(r - l, b - t)`; `paste` and text drawing do not change the size).
Dimensions are `Int`, as Python integers are unbounded and the arithmetic
in the source is plain integer arithmetic.

Everything environment-dependent is a field of `Env`:
* `avail` — which font identifiers `ImageFont.truetype` can load
  (a `try/except` around the load in the source);
* `bbox` — the text measurement returned by `draw.textbbox((0,0), s, font)`;
* `openImage` — the raw image a path loads to (`Image.open`).

Fallible control flow is `Option`: `get_poster` returns `none` exactly
when the Python function raises (an uncaught `ZeroDivisionError` for
`images_per_row = 0`, or an `AttributeError` from dereferencing the
`None` poster when the tile list is empty).
-/

set_option linter.unusedVariables false
set_option linter.unnecessarySeqFocus false

/-- An RGBA color, as the 4-tuples of the source. -/
structure RGBA where
  r : Nat
  g : Nat
  b : Nat
  a : Nat
deriving DecidableEq, Repr

/-- A font handle: either a truetype font loaded from a named source at a
point size, or PIL's built-in `ImageFont.load_default()`. -/
inductive Font where
  | truetype (name : String) (size : Int)
  | load_default
deriving DecidableEq, Repr

/-- A text bounding box as returned by `draw.textbbox((0, 0), text, font)`:
the 4-tuple `(x0, y0, x1, y1)`. -/
structure BBox where
  x0 : Int
  y0 : Int
  x1 : Int
  y1 : Int
deriving DecidableEq, Repr

/-- A raw image as produced by `Image.open(path)`: its dimensions and its
PIL mode string (e.g. "RGBA", "RGB", "P"). -/
structure SrcImage where
  width : Int
  height : Int
  mode : String
deriving DecidableEq, Repr

/-- The platform environment the program runs against: which fonts load,
how text measures, and what each image file contains. -/
structure Env where
  avail : String → Bool
  bbox : Font → String → BBox
  openImage : String → SrcImage

/-- A PIL image value, recorded as the tree of operations that built it.
`paste` carries `useAlphaMask = true` when the source canvas was passed as
its own paste mask (the `im.paste(src, pos, src)` form). -/
inductive Canvas where
  | new (width height : Int) (color : RGBA)
  | source (img : SrcImage)
  | resize (c : Canvas) (width height : Int)
  | crop (c : Canvas) (left top right bottom : Int)
  | paste (dst src : Canvas) (x y : Int) (useAlphaMask : Bool)
  | text (base : Canvas) (x y : Int) (s : String) (font : Font) (color : RGBA)
deriving DecidableEq, Repr

namespace Canvas

/-- `image.size[0]`. -/
def width : Canvas → Int
  | .new w _ _ => w
  | .source img => img.width
  | .resize _ w _ => w
  | .crop _ l _ r _ => r - l
  | .paste d _ _ _ _ => d.width
  | .text b _ _ _ _ _ => b.width

/-- `image.size[1]`. -/
def height : Canvas → Int
  | .new _ h _ => h
  | .source img => img.height
  | .resize _ _ h => h
  | .crop _ _ t _ b => b - t
  | .paste d _ _ _ _ => d.height
  | .text b _ _ _ _ _ => b.height

/-- `image.mode`: `Image.new("RGBA", ...)` is always RGBA; resize, crop,
paste and drawing keep the mode; an opened file has its own mode. -/
def mode : Canvas → String
  | .new _ _ _ => "RGBA"
  | .source img => img.mode
  | .resize c _ _ => c.mode
  | .crop c _ _ _ _ => c.mode
  | .paste d _ _ _ _ => d.mode
  | .text b _ _ _ _ _ => b.mode

/-- The fill color of the `Image.new` at the root of a composite, i.e. the
background the canvas was created with (if it was created by `Image.new`). -/
def baseFill : Canvas → Option RGBA
  | .new _ _ c => some c
  | .source _ => none
  | .resize c _ _ => c.baseFill
  | .crop c _ _ _ _ => c.baseFill
  | .paste d _ _ _ _ => d.baseFill
  | .text b _ _ _ _ _ => b.baseFill

/-- The pastes applied on top of the root canvas, in application order:
for each, the pasted canvas, its position, and whether its alpha channel
was used as the paste mask. -/
def pastes : Canvas → List (Canvas × Int × Int × Bool)
  | .new _ _ _ => []
  | .source _ => []
  | .resize c _ _ => c.pastes
  | .crop c _ _ _ _ => c.pastes
  | .paste d s x y m => d.pastes ++ [(s, x, y, m)]
  | .text b _ _ _ _ _ => b.pastes

end Canvas

/-! ### Module-level configuration constants of `posterAssembly.py` -/

def DEFAULT_FONT_SIZE : Int := 40
def DEFAULT_FONT_FAMILY : String := "Arial"
def TEXT_PADDING : Int := 10
def TEXT_BOTTOM_MARGIN : Int := 15
def TEXT_BACKGROUND_COLOR : RGBA := ⟨255, 255, 255, 255⟩
def TEXT_COLOR : RGBA := ⟨0, 0, 0, 255⟩

def DEFAULT_TITLE_FONT_SIZE : Int := 120
def DEFAULT_TITLE_FONT_FAMILY : String := "Helvetica-Bold"
def DEFAULT_TITLE_HEIGHT : Int := 200
def TITLE_BACKGROUND_COLOR : RGBA := ⟨255, 255, 255, 255⟩
def TITLE_TEXT_COLOR : RGBA := ⟨0, 0, 0, 255⟩

def DEFAULT_HORIZONTAL_SPACING : Int := 0
def DEFAULT_VERTICAL_SPACING : Int := 0
def DEFAULT_BACKGROUND_COLOR : RGBA := ⟨250, 250, 250, 255⟩
def DEFAULT_LEFT_MARGIN : Int := 5
def DEFAULT_RIGHT_MARGIN : Int := 5

def DEFAULT_FOOTER_FONT_SIZE : Int := 30
def DEFAULT_FOOTER_FONT_FAMILY : String := "Arial"
def DEFAULT_FOOTER_HEIGHT : Int := 100
def FOOTER_BACKGROUND_COLOR : RGBA := ⟨255, 255, 255, 255⟩
def FOOTER_TEXT_COLOR : RGBA := ⟨0, 0, 0, 255⟩
def FOOTER_LEFT_MARGIN : Int := 40

/-! ### Leaf helpers -/

/-- `format_country_name`: `country_name.replace("+", " ")`. -/
def format_country_name (country_name : String) : String :=
  country_name.replace "+" " "

/-- `get_country_name_from_path`: `path.split("/")[-1][0:-4]`.
The Python slice `[0:-4]` keeps all but the last four characters and is
empty when the string has at most four characters. -/
def get_country_name_from_path (path : String) : String :=
  let last := (path.splitOn "/").getLastD ""
  last.take (last.length - 4)

/-- The adjusted caption font size of `add_text_label_to_image`
(lines 103-110): long captions are drawn with a reduced size.
`int(font_size * 0.65)` and `int(font_size * 0.9)` are modelled as exact
integer floors `(font_size * 65).fdiv 100` and `(font_size * 9).fdiv 10`;
for the non-negative sizes the program uses, Python's float product and
truncation agree with this. -/
def adjusted_font_size (font_size : Int) (text : String) : Int :=
  if 30 ≤ text.length then (font_size * 65).fdiv 100
  else if 24 ≤ text.length then (font_size * 9).fdiv 10
  else if 22 ≤ text.length then (font_size * 9).fdiv 10
  else font_size

/-- The font-resolution loop shared by `add_text_label_to_image`,
`create_title_row` and `create_footer_row`: try each candidate with
`ImageFont.truetype` inside `try/except`, keep the first success; when
every candidate fails, fall back to `ImageFont.load_default()` (the
source also prints a warning in that case). -/
def resolve_font (avail : String → Bool) (candidates : List String) (size : Int) : Font :=
  match candidates with
  | [] => Font.load_default
  | c :: rest => if avail c then Font.truetype c size else resolve_font avail rest size

/-- The `bold_font_variations` candidate list of `add_text_label_to_image`. -/
def bold_font_variations (font_family : String) : List String :=
  [font_family ++ "-Bold",
   font_family ++ " Bold",
   font_family,
   "/System/Library/Fonts/Supplemental/" ++ font_family ++ " Bold.ttf",
   "/System/Library/Fonts/Supplemental/" ++ font_family ++ "-Bold.ttf",
   "/System/Library/Fonts/Supplemental/" ++ font_family ++ ".ttf",
   "/System/Library/Fonts/Supplemental/Arial Bold.ttf",
   "/System/Library/Fonts/Supplemental/Arial.ttf"]

/-- The `font_variations` candidate list of `create_title_row`. -/
def title_font_variations (title_font_family : String) : List String :=
  let stripped := title_font_family.replace " " ""
  [title_font_family,
   stripped,
   stripped ++ "-Regular",
   "/Library/Fonts/" ++ stripped ++ "-Regular.otf",
   "/Library/Fonts/" ++ stripped ++ ".otf",
   "/System/Library/Fonts/Supplemental/" ++ title_font_family ++ ".ttf",
   "/System/Library/Fonts/Supplemental/" ++ (title_font_family.replace "-Bold" "") ++ ".ttf",
   "/System/Library/Fonts/Helvetica.ttc"]

/-- The `font_variations` candidate list of `create_footer_row`. -/
def footer_font_variations (footer_font_family : String) : List String :=
  [footer_font_family,
   "/System/Library/Fonts/Supplemental/" ++ footer_font_family ++ ".ttf",
   "/System/Library/Fonts/Supplemental/Arial.ttf"]

/-- `add_text_label_to_image(image, text, font_size, font_family,
text_color, bg_color)` (lines 81-162). -/
def add_text_label_to_image (env : Env) (image : Canvas) (text : String)
    (font_size : Int) (font_family : String)
    (text_color : RGBA) (bg_color : RGBA) : Canvas :=
  let font := resolve_font env.avail (bold_font_variations font_family)
    (adjusted_font_size font_size text)
  let text_bbox := env.bbox font text
  let text_width := text_bbox.x1 - text_bbox.x0
  let text_height := text_bbox.y1 - text_bbox.y0
  let text_area_height := text_height + TEXT_PADDING + TEXT_BOTTOM_MARGIN
  let new_height := image.height + text_area_height
  let new_image := Canvas.new image.width new_height bg_color
  let new_image := Canvas.paste new_image image 0 0 (image.mode == "RGBA")
  Canvas.text new_image ((image.width - text_width).fdiv 2)
    (image.height + TEXT_PADDING) text font text_color

/-- `create_title_row(width, title, ...)` (lines 165-230). -/
def create_title_row (env : Env) (width : Int) (title : String)
    (title_height : Int) (title_font_size : Int) (title_font_family : String)
    (title_text_color : RGBA) (title_bg_color : RGBA) : Canvas :=
  let title_image := Canvas.new width title_height title_bg_color
  let font := resolve_font env.avail (title_font_variations title_font_family) title_font_size
  let text_bbox := env.bbox font title
  let text_width := text_bbox.x1 - text_bbox.x0
  let text_height := text_bbox.y1 - text_bbox.y0
  Canvas.text title_image ((width - text_width).fdiv 2)
    ((title_height - text_height).fdiv 2) title font title_text_color

/-- `create_footer_row(width, footer_text, ...)` (lines 233-296). -/
def create_footer_row (env : Env) (width : Int) (footer_text : String)
    (footer_height : Int) (footer_font_size : Int) (footer_font_family : String)
    (footer_text_color : RGBA) (footer_bg_color : RGBA)
    (footer_left_margin : Int) : Canvas :=
  let footer_image := Canvas.new width footer_height footer_bg_color
  let font := resolve_font env.avail (footer_font_variations footer_font_family) footer_font_size
  let text_bbox := env.bbox font footer_text
  let text_height := text_bbox.y1 - text_bbox.y0
  Canvas.text footer_image footer_left_margin
    ((footer_height - text_height).fdiv 2) footer_text font footer_text_color

/-- `merge_horizontally(im1, im2, spacing, bg_color)` (lines 299-330).
`bg_color : Option RGBA` models the Python `None` default. -/
def merge_horizontally (im1 im2 : Canvas) (spacing : Int)
    (bg_color : Option RGBA) : Canvas :=
  let bg := bg_color.getD DEFAULT_BACKGROUND_COLOR
  let w := im1.width + spacing + im2.width
  let h := max im1.height im2.height
  let im := Canvas.new w h bg
  let im := Canvas.paste im im1 0 0 (im1.mode == "RGBA")
  Canvas.paste im im2 (im1.width + spacing) 0 (im2.mode == "RGBA")

/-- `merge_vertically(im1, im2, spacing, bg_color)` (lines 333-364). -/
def merge_vertically (im1 im2 : Canvas) (spacing : Int)
    (bg_color : Option RGBA) : Canvas :=
  let bg := bg_color.getD DEFAULT_BACKGROUND_COLOR
  let h := im1.height + spacing + im2.height
  let w := max im1.width im2.width
  let im := Canvas.new w h bg
  let im := Canvas.paste im im1 0 0 (im1.mode == "RGBA")
  Canvas.paste im im2 0 (im1.height + spacing) (im2.mode == "RGBA")

/-- `get_processed_image_from_path(image_path)` (lines 367-377):
resize the source to 705x1000 then crop by box `(5, 5, 680, 975)`. -/
def get_processed_image_from_path (env : Env) (image_path : String) : Canvas :=
  let pp_image := Canvas.source (env.openImage image_path)
  let bottom_crop_length : Int := 25
  let bar_width : Int := 5
  let resized_image := Canvas.resize pp_image 705 1000
  Canvas.crop resized_image bar_width bar_width
    (705 - bottom_crop_length) (1000 - bottom_crop_length)

/-! ### The assembler `get_poster` (lines 380-540)

The row-building loop (lines 444-481) is translated once, generically in
the merged value and the per-tile processing, exactly as the source walks
`image_paths` with state `(row_images, current_row_image,
elements_in_row_so_far)`.  `get_poster` instantiates it with
`merge_horizontally`; instantiating the same loop with list append (resp.
a merge counter) observes which tiles land in which row (resp. how many
horizontal merges each row performs). -/

def row_loop {α β : Type} (merge : β → β → β) (proc : α → β) (images_per_row : Int) :
    List α → List β → Option β → Int → List β × Option β
  | [], row_images, current_row_image, _ => (row_images, current_row_image)
  | image_path :: rest, row_images, current_row_image, elements_in_row_so_far =>
    let processed_image := proc image_path
    match current_row_image with
    | none =>
      row_loop merge proc images_per_row rest row_images (some processed_image) 1
    | some current =>
      if elements_in_row_so_far < images_per_row then
        row_loop merge proc images_per_row rest row_images
          (some (merge current processed_image)) (elements_in_row_so_far + 1)
      else
        row_loop merge proc images_per_row rest (row_images ++ [current])
          (some processed_image) 1

/-- The per-tile processing of the loop body (lines 449-464): process the
image, and when `add_labels` is set, caption it with the formatted country
name; note the label call passes the poster `background_color` as the
label's background. -/
def poster_tile (env : Env) (add_labels : Bool) (font_size : Int)
    (font_family : String) (text_color background_color : RGBA)
    (image_path : String) : Canvas :=
  let processed_image := get_processed_image_from_path env image_path
  if add_labels then
    add_text_label_to_image env processed_image
      (format_country_name (get_country_name_from_path image_path))
      font_size font_family text_color background_color
  else processed_image

/-- The finished rows of `get_poster` (lines 444-481): the rows closed by
the loop plus the trailing `current_row_image` when there is one. -/
def poster_rows (env : Env) (images_per_row : Int) (image_paths : List String)
    (add_labels : Bool) (font_size : Int) (font_family : String)
    (text_color : RGBA) (horizontal_spacing : Int)
    (background_color : RGBA) : List Canvas :=
  let st := row_loop
    (fun a b => merge_horizontally a b horizontal_spacing (some background_color))
    (poster_tile env add_labels font_size font_family text_color background_color)
    images_per_row image_paths [] none 0
  st.1 ++ st.2.toList

/-- The row-merging loop of `get_poster` (lines 484-490): fold the rows
with `merge_vertically`, starting from `poster = None`. -/
def grid_fold (vertical_spacing : Int) (bg : Option RGBA)
    (row_images : List Canvas) : Option Canvas :=
  row_images.foldl (fun poster row_image =>
    match poster with
    | none => some row_image
    | some p => some (merge_vertically p row_image vertical_spacing bg)) none

/-- Python truthiness of an optional string: `if title:` is taken for a
present, non-empty string only. -/
def py_truthy (s : Option String) : Bool :=
  match s with
  | none => false
  | some t => t != ""

/-- `get_poster` (lines 380-540).  Returns `none` when the Python
function raises: `images_per_row = 0` hits a `ZeroDivisionError` in the
`num_rows` computation (line 441), and an empty grid leaves `poster =
None`, which every later step (`create_title_row(width=poster.size[0])`,
the margin step, the final size print) dereferences — an uncaught
`AttributeError`. -/
def get_poster (env : Env) (images_per_row : Int) (image_paths : List String)
    (add_labels : Bool) (font_size : Int) (font_family : String)
    (text_color bg_color : RGBA)
    (title : Option String) (title_height title_font_size : Int)
    (title_font_family : String) (title_text_color title_bg_color : RGBA)
    (horizontal_spacing vertical_spacing : Int) (background_color : RGBA)
    (footer_text : Option String) (footer_height footer_font_size : Int)
    (footer_font_family : String) (footer_text_color footer_bg_color : RGBA)
    (footer_left_margin : Int) (left_margin right_margin : Int) : Option Canvas :=
  if images_per_row = 0 then none
  else
    match grid_fold vertical_spacing (some background_color)
      (poster_rows env images_per_row image_paths add_labels font_size
        font_family text_color horizontal_spacing background_color) with
    | none => none
    | some poster0 =>
      let poster1 := if py_truthy title then
          merge_vertically
            (create_title_row env poster0.width (title.getD "") title_height
              title_font_size title_font_family title_text_color title_bg_color)
            poster0 0 (some background_color)
        else poster0
      let poster2 := if py_truthy footer_text then
          merge_vertically poster1
            (create_footer_row env poster1.width (footer_text.getD "")
              footer_height footer_font_size footer_font_family
              footer_text_color footer_bg_color footer_left_margin)
            0 (some background_color)
        else poster1
      let poster3 := if 0 < left_margin ∨ 0 < right_margin then
          Canvas.paste
            (Canvas.new (poster2.width + left_margin + right_margin)
              poster2.height background_color)
            poster2 left_margin 0 (poster2.mode == "RGBA")
        else poster2
      some poster3

/-! ### Observations of the row-building loop -/

/-- The loop instantiated to collect, per finished row, the list of tiles
it consumed. -/
def row_groups {α : Type} (images_per_row : Int) (image_paths : List α) :
    List (List α) :=
  let st := row_loop (fun a b => a ++ b) (fun a => [a]) images_per_row
    image_paths [] none 0
  st.1 ++ st.2.toList

/-- The loop instantiated to count, per finished row, how many horizontal
merge calls built it. -/
def row_merge_counts {α : Type} (images_per_row : Int) (image_paths : List α) :
    List Nat :=
  let st := row_loop (fun a _ => a + 1) (fun _ => (0 : Nat)) images_per_row
    image_paths [] none 0
  st.1 ++ st.2.toList

/-- Reference chunking: split a list into consecutive runs of `W`
elements (`W ≥ 1`), the last run possibly shorter. -/
def chunked {α : Type} (W : Int) : List α → List (List α)
  | [] => []
  | a :: l => (a :: l.take (W - 1).toNat) :: chunked W (l.drop (W - 1).toNat)
termination_by l => l.length
decreasing_by simp [List.length_drop]; omega

/-- Folding one row's tiles with a merge operation, the way the loop
accumulates `current_row_image = merge(current_row_image, tile)`: the
first tile of the group seeds the row, later tiles are merged in order.
(`d` is a dummy for the unreachable empty-group case.) -/
def row_fold {α β : Type} (m : β → β → β) (proc : α → β) (d : α)
    (g : List α) : β :=
  g.tail.foldl (fun b x => m b (proc x)) (proc (g.headD d))

/-! ### Theorems -/

theorem row_groups_example :
    row_groups 3 [0, 1, 2, 3, 4, 5, 6] = [[0, 1, 2], [3, 4, 5], [6]] := by decide

theorem row_merge_counts_example :
    row_merge_counts 3 [0, 1, 2, 3, 4, 5, 6] = [2, 2, 0] := by decide

theorem chunked_cons {α : Type} (W : Int) (a : α) (l : List α) :
    chunked W (a :: l) =
      (a :: l.take (W - 1).toNat) :: chunked W (l.drop (W - 1).toNat) := by
  rw [chunked]

theorem chunked_eq_nil_iff {α : Type} (W : Int) (l : List α) :
    chunked W l = [] ↔ l = [] := by
  cases l with
  | nil => simp [chunked]
  | cons a l => rw [chunked_cons]; simp

/-- Invariant of the list-collecting instantiation of `row_loop`: from a
state with an open row `c` (not yet full), the finished rows are the
accumulated ones, then `c` topped up to `W` tiles, then the chunks of the
remaining input. -/
theorem row_loop_groups_invariant {α : Type} (W : Int) (hW : 1 ≤ W) :
    ∀ (ps : List α) (acc : List (List α)) (c : List α), c ≠ [] → (c.length : Int) ≤ W →
      (row_loop (fun a b => a ++ b) (fun a => [a]) W ps acc (some c) (c.length : Int)).1 ++
        (row_loop (fun a b => a ++ b) (fun a => [a]) W ps acc (some c) (c.length : Int)).2.toList =
      acc ++ (c ++ ps.take (W - c.length).toNat) :: chunked W (ps.drop (W - c.length).toNat) := by
  intro ps
  induction ps with
  | nil => intro acc c hc hcW; simp [row_loop, chunked]
  | cons p ps ih =>
    intro acc c hc hcW
    by_cases h : (c.length : Int) < W
    · have hstep : row_loop (fun a b => a ++ b) (fun a => [a]) W (p :: ps) acc
          (some c) (c.length : Int)
        = row_loop (fun a b => a ++ b) (fun a => [a]) W ps acc
          (some (c ++ [p])) ((c.length : Int) + 1) := by
        simp [row_loop, h]
      have hlen : ((c ++ [p]).length : Int) = (c.length : Int) + 1 := by
        simp
      have ih' := ih acc (c ++ [p]) (by simp) (by rw [hlen]; omega)
      rw [hlen] at ih'
      rw [hstep, ih']
      have hn : (W - (c.length : Int)).toNat = (W - ((c.length : Int) + 1)).toNat + 1 := by
        omega
      rw [hn]
      simp [List.take_succ_cons, List.drop_succ_cons]
    · have hceq : (c.length : Int) = W := le_antisymm hcW (not_lt.mp h)
      have hstep : row_loop (fun a b => a ++ b) (fun a => [a]) W (p :: ps) acc
          (some c) (c.length : Int)
        = row_loop (fun a b => a ++ b) (fun a => [a]) W ps (acc ++ [c])
          (some [p]) 1 := by
        simp [row_loop, h]
      have ih' := ih (acc ++ [c]) [p] (by simp) (by simpa using hW)
      simp only [List.length_singleton, Nat.cast_one] at ih'
      rw [hstep, ih']
      have h0 : (W - (c.length : Int)).toNat = 0 := by omega
      rw [h0]
      simp [chunked_cons]

/-- The rows the loop builds, observed as lists of consumed tiles, are
exactly the consecutive chunks of `W` input tiles. -/
theorem row_groups_eq_chunked {α : Type} (W : Int) (hW : 1 ≤ W) (ps : List α) :
    row_groups W ps = chunked W ps := by
  cases ps with
  | nil => simp [row_groups, row_loop, chunked]
  | cons p rest =>
    have hstep : row_loop (fun a b => a ++ b) (fun a => [a]) W (p :: rest) [] none 0
        = row_loop (fun a b => a ++ b) (fun a => [a]) W rest [] (some [p]) 1 := by
      simp [row_loop]
    have inv := row_loop_groups_invariant W hW rest [] [p] (by simp) (by simpa using hW)
    simp only [List.length_singleton, Nat.cast_one] at inv
    unfold row_groups
    rw [hstep, inv, chunked_cons]
    simp


/-- Number of chunks: the ceiling `⌈N / W⌉`, written `(N + W - 1) / W`. -/
theorem chunked_length {α : Type} (W : Int) (hW : 1 ≤ W) (l : List α) :
    (chunked W l).length = (l.length + (W.toNat - 1)) / W.toNat := by
  have hk : 0 < W.toNat := by omega
  have H : ∀ (n : Nat) (l : List α), l.length = n →
      (chunked W l).length = (l.length + (W.toNat - 1)) / W.toNat := by
    intro n
    induction n using Nat.strong_induction_on with
    | _ n ih =>
      intro l hn
      cases l with
      | nil =>
        simp [chunked, Nat.div_eq_of_lt (by omega : W.toNat - 1 < W.toNat)]
      | cons a l =>
        rw [chunked_cons]
        have ihl := ih (l.drop (W - 1).toNat).length
          (by simp at hn ⊢; omega) (l.drop (W - 1).toNat) rfl
        simp only [List.length_cons, ihl, List.length_drop]
        have hWt : (W - 1).toNat = W.toNat - 1 := by omega
        rw [hWt]
        rcases le_or_lt l.length (W.toNat - 1) with hM | hM
        · have h1 : l.length - (W.toNat - 1) = 0 := by omega
          rw [h1]
          rw [Nat.div_eq_of_lt (by omega)]
          have h4 : W.toNat ≤ l.length + 1 + (W.toNat - 1) := by omega
          rw [Nat.div_eq_sub_div hk h4, Nat.div_eq_of_lt (by omega)]
        · have h1 : l.length - (W.toNat - 1) + (W.toNat - 1) = l.length := by omega
          rw [h1]
          have h2 : l.length + 1 + (W.toNat - 1) = l.length + W.toNat := by omega
          rw [h2, Nat.add_div_right _ hk]
  exact H l.length l rfl

/-- The chunks concatenate back to the input: tiles are consumed in
input order, none dropped or duplicated. -/
theorem chunked_flatten {α : Type} (W : Int) (l : List α) :
    (chunked W l).flatten = l := by
  have H : ∀ (n : Nat) (l : List α), l.length = n → (chunked W l).flatten = l := by
    intro n
    induction n using Nat.strong_induction_on with
    | _ n ih =>
      intro l hn
      cases l with
      | nil => simp [chunked]
      | cons a l =>
        rw [chunked_cons]
        have ihl := ih (l.drop (W - 1).toNat).length
          (by simp at hn ⊢; omega) (l.drop (W - 1).toNat) rfl
        simp only [List.flatten_cons, List.cons_append, ihl, List.take_append_drop]
  exact H l.length l rfl

/-- Every chunk except the last holds exactly `W` tiles. -/
theorem chunked_dropLast_length {α : Type} (W : Int) (hW : 1 ≤ W) (l : List α) :
    ∀ g ∈ (chunked W l).dropLast, g.length = W.toNat := by
  have H : ∀ (n : Nat) (l : List α), l.length = n →
      ∀ g ∈ (chunked W l).dropLast, g.length = W.toNat := by
    intro n
    induction n using Nat.strong_induction_on with
    | _ n ih =>
      intro l hn
      cases l with
      | nil => simp [chunked]
      | cons a l =>
        rw [chunked_cons]
        intro g hg
        cases hrest : chunked W (l.drop (W - 1).toNat) with
        | nil => rw [hrest] at hg; simp at hg
        | cons r rs =>
          rw [hrest] at hg
          rw [List.dropLast_cons_of_ne_nil (by simp)] at hg
          rcases List.mem_cons.mp hg with hg | hg
          · subst hg
            have hne : l.drop (W - 1).toNat ≠ [] := by
              intro hcon
              rw [hcon] at hrest
              simp [chunked] at hrest
            have hlen : (W - 1).toNat < l.length := by
              by_contra hcon
              push_neg at hcon
              exact hne (List.drop_eq_nil_of_le hcon)
            simp [List.length_take]
            omega
          · have := ih (l.drop (W - 1).toNat).length
              (by simp at hn ⊢; omega) (l.drop (W - 1).toNat) rfl g
            rw [hrest] at this
            exact this hg
  exact H l.length l rfl

/-- The last chunk holds `N mod W` tiles, or `W` when `W` divides `N`. -/
theorem chunked_getLast_length {α : Type} (W : Int) (hW : 1 ≤ W) (l : List α)
    (hl : l ≠ []) :
    ∃ g, (chunked W l).getLast? = some g ∧
      g.length = (if l.length % W.toNat = 0 then W.toNat else l.length % W.toNat) := by
  have hk : 0 < W.toNat := by omega
  have H : ∀ (n : Nat) (l : List α), l.length = n → l ≠ [] →
      ∃ g, (chunked W l).getLast? = some g ∧
        g.length = (if l.length % W.toNat = 0 then W.toNat else l.length % W.toNat) := by
    intro n
    induction n using Nat.strong_induction_on with
    | _ n ih =>
      intro l hn hne0
      cases l with
      | nil => exact absurd rfl hne0
      | cons a l =>
        rw [chunked_cons]
        cases hrest : chunked W (l.drop (W - 1).toNat) with
        | nil =>
          refine ⟨a :: l.take (W - 1).toNat, by simp, ?_⟩
          have hnil : l.drop (W - 1).toNat = [] := (chunked_eq_nil_iff W _).mp hrest
          have hlen : l.length ≤ (W - 1).toNat := by
            by_contra hcon
            push_neg at hcon
            have := congrArg List.length hnil
            simp at this
            omega
          simp only [List.length_cons, List.length_take]
          rcases Nat.lt_or_ge (l.length + 1) W.toNat with hlt | hge
          · rw [Nat.mod_eq_of_lt hlt, if_neg (by omega)]
            omega
          · have heq : l.length + 1 = W.toNat := by omega
            rw [heq, Nat.mod_self, if_pos rfl]
            omega
        | cons r rs =>
          have hne : l.drop (W - 1).toNat ≠ [] := by
            intro hcon
            rw [hcon] at hrest
            simp [chunked] at hrest
          have hlen : (W - 1).toNat < l.length := by
            by_contra hcon
            push_neg at hcon
            exact hne (List.drop_eq_nil_of_le hcon)
          obtain ⟨g, hg, hglen⟩ := ih (l.drop (W - 1).toNat).length
            (by simp at hn ⊢; omega) (l.drop (W - 1).toNat) rfl hne
          rw [hrest] at hg
          refine ⟨g, ?_, ?_⟩
          · rw [List.getLast?_cons_cons]
            exact hg
          · rw [hglen]
            have hdl : (l.drop (W - 1).toNat).length = l.length - (W.toNat - 1) := by
              rw [List.length_drop]
              omega
            rw [hdl]
            have hNk : W.toNat ≤ l.length + 1 := by omega
            have hmod : (l.length + 1) % W.toNat = (l.length + 1 - W.toNat) % W.toNat :=
              Nat.mod_eq_sub_mod hNk
            have harg : l.length - (W.toNat - 1) = l.length + 1 - W.toNat := by omega
            rw [harg]
            simp only [List.length_cons]
            rw [hmod]
  exact H l.length l rfl hl

theorem merge_horizontally_width (im1 im2 : Canvas) (sp : Int) (bg : Option RGBA) :
    (merge_horizontally im1 im2 sp bg).width = im1.width + sp + im2.width := rfl

theorem merge_horizontally_height (im1 im2 : Canvas) (sp : Int) (bg : Option RGBA) :
    (merge_horizontally im1 im2 sp bg).height = max im1.height im2.height := rfl

theorem merge_vertically_width (im1 im2 : Canvas) (sp : Int) (bg : Option RGBA) :
    (merge_vertically im1 im2 sp bg).width = max im1.width im2.width := rfl

theorem merge_vertically_height (im1 im2 : Canvas) (sp : Int) (bg : Option RGBA) :
    (merge_vertically im1 im2 sp bg).height = im1.height + sp + im2.height := rfl

theorem create_title_row_width (env : Env) (w : Int) (t : String) (th tfs : Int)
    (tff : String) (ttc tbc : RGBA) :
    (create_title_row env w t th tfs tff ttc tbc).width = w := rfl

theorem create_title_row_height (env : Env) (w : Int) (t : String) (th tfs : Int)
    (tff : String) (ttc tbc : RGBA) :
    (create_title_row env w t th tfs tff ttc tbc).height = th := rfl

theorem create_footer_row_width (env : Env) (w : Int) (t : String) (fh ffs : Int)
    (fff : String) (ftc fbc : RGBA) (flm : Int) :
    (create_footer_row env w t fh ffs fff ftc fbc flm).width = w := rfl

theorem create_footer_row_height (env : Env) (w : Int) (t : String) (fh ffs : Int)
    (fff : String) (ftc fbc : RGBA) (flm : Int) :
    (create_footer_row env w t fh ffs fff ftc fbc flm).height = fh := rfl

/-- Appending a tile to a non-empty row group merges it into the folded row. -/
theorem row_fold_append {α β : Type} (m : β → β → β) (proc : α → β) (d : α)
    (c : List α) (hc : c ≠ []) (p : α) :
    row_fold m proc d (c ++ [p]) = m (row_fold m proc d c) (proc p) := by
  cases c with
  | nil => exact absurd rfl hc
  | cons a t => simp [row_fold, List.foldl_append]

theorem row_fold_singleton {α β : Type} (m : β → β → β) (proc : α → β) (d : α)
    (p : α) : row_fold m proc d [p] = proc p := rfl

/-- The canvas-building instantiation of the loop is the image, under
per-group folding, of the list-collecting instantiation: the loop builds
each finished row by folding its group of tiles with the merge. -/
theorem row_loop_hom {α β : Type} (m : β → β → β) (proc : α → β) (W : Int) (d : α) :
    ∀ (ps : List α) (acc : List (List α)) (c : List α) (cnt : Int), c ≠ [] →
      (row_loop m proc W ps (acc.map (row_fold m proc d))
          (some (row_fold m proc d c)) cnt).1 ++
        (row_loop m proc W ps (acc.map (row_fold m proc d))
          (some (row_fold m proc d c)) cnt).2.toList =
      ((row_loop (fun a b => a ++ b) (fun a => [a]) W ps acc (some c) cnt).1 ++
        (row_loop (fun a b => a ++ b) (fun a => [a]) W ps acc (some c) cnt).2.toList).map
        (row_fold m proc d) := by
  intro ps
  induction ps with
  | nil => intro acc c cnt hc; simp [row_loop]
  | cons p ps ih =>
    intro acc c cnt hc
    by_cases h : cnt < W
    · simp only [row_loop, if_pos h]
      rw [← row_fold_append m proc d c hc p]
      exact ih acc (c ++ [p]) (cnt + 1) (by simp)
    · simp only [row_loop, if_neg h]
      have hacc : acc.map (row_fold m proc d) ++ [row_fold m proc d c] =
          (acc ++ [c]).map (row_fold m proc d) := by simp
      rw [hacc, ← row_fold_singleton m proc d p]
      exact ih (acc ++ [c]) [p] 1 (by simp)

/-- The finished rows of `get_poster` are the per-group horizontal merges
of the tile groups. -/
theorem poster_rows_eq_map (env : Env) (W : Int) (ps : List String)
    (add_labels : Bool) (fs : Int) (fam : String) (tc : RGBA) (hsp : Int)
    (bg : RGBA) :
    poster_rows env W ps add_labels fs fam tc hsp bg =
      (row_groups W ps).map
        (row_fold (fun a b => merge_horizontally a b hsp (some bg))
          (poster_tile env add_labels fs fam tc bg) "") := by
  cases ps with
  | nil => simp [poster_rows, row_groups, row_loop]
  | cons p rest =>
    unfold poster_rows row_groups
    have h1 : row_loop (fun a b => merge_horizontally a b hsp (some bg))
        (poster_tile env add_labels fs fam tc bg) W (p :: rest) [] none 0
      = row_loop (fun a b => merge_horizontally a b hsp (some bg))
        (poster_tile env add_labels fs fam tc bg) W rest []
        (some (poster_tile env add_labels fs fam tc bg p)) 1 := by
      simp [row_loop]
    have h2 : row_loop (fun a b => a ++ b) (fun a => [a]) W (p :: rest) [] none 0
      = row_loop (fun a b => a ++ b) (fun a => [a]) W rest [] (some [p]) 1 := by
      simp [row_loop]
    rw [h1, h2]
    have := row_loop_hom (fun a b => merge_horizontally a b hsp (some bg))
      (poster_tile env add_labels fs fam tc bg) W "" rest [] [p] 1 (by simp)
    simpa [row_fold] using this

/-- Folding a list with the `merge_vertically` step from a `some` seed
never comes back to `none`, and is the plain fold of the rows. -/
theorem grid_fold_from_some (vs : Int) (bg : Option RGBA) :
    ∀ (rows : List Canvas) (p : Canvas),
      rows.foldl (fun poster row_image =>
        match poster with
        | none => some row_image
        | some q => some (merge_vertically q row_image vs bg)) (some p) =
      some (rows.foldl (fun q r => merge_vertically q r vs bg) p) := by
  intro rows
  induction rows with
  | nil => intro p; rfl
  | cons r rs ih => intro p; exact ih (merge_vertically p r vs bg)

theorem grid_fold_cons (vs : Int) (bg : Option RGBA) (r : Canvas) (rs : List Canvas) :
    grid_fold vs bg (r :: rs) =
      some (rs.foldl (fun q x => merge_vertically q x vs bg) r) := by
  unfold grid_fold
  exact grid_fold_from_some vs bg rs r

theorem foldl_mergeV_height (vs : Int) (bg : Option RGBA) :
    ∀ (rs : List Canvas) (p : Canvas),
      (rs.foldl (fun q x => merge_vertically q x vs bg) p).height =
        p.height + (rs.map Canvas.height).sum + vs * rs.length := by
  intro rs
  induction rs with
  | nil => intro p; simp
  | cons r rs ih =>
    intro p
    have := ih (merge_vertically p r vs bg)
    simp only [List.foldl_cons, this, merge_vertically_height, List.map_cons,
      List.sum_cons, List.length_cons]
    push_cast
    ring

theorem foldl_mergeV_width (vs : Int) (bg : Option RGBA) :
    ∀ (rs : List Canvas) (p : Canvas),
      (rs.foldl (fun q x => merge_vertically q x vs bg) p).width =
        (rs.map Canvas.width).foldl max p.width := by
  intro rs
  induction rs with
  | nil => intro p; simp
  | cons r rs ih =>
    intro p
    have := ih (merge_vertically p r vs bg)
    simp only [List.foldl_cons, this, merge_vertically_width, List.map_cons]

/-- A row built by left-folding horizontal merges is as tall as its
tallest tile. -/
theorem foldl_mergeH_height {α : Type} (sp : Int) (bg : Option RGBA) (f : α → Canvas) :
    ∀ (ts : List α) (t : Canvas),
      (ts.foldl (fun b x => merge_horizontally b (f x) sp bg) t).height =
        (ts.map (fun x => (f x).height)).foldl max t.height := by
  intro ts
  induction ts with
  | nil => intro t; simp
  | cons x ts ih =>
    intro t
    have := ih (merge_horizontally t (f x) sp bg)
    simp only [List.foldl_cons, this, merge_horizontally_height, List.map_cons]

/-- A concrete environment for evaluating the program at specific inputs:
no named font loads (so resolution degrades to the built-in default),
every caption measures to a 120x30 box, and every file opens as a
705x1000 RGBA image. -/
def exEnv : Env where
  avail := fun _ => false
  bbox := fun _ _ => ⟨0, 0, 120, 30⟩
  openImage := fun _ => ⟨705, 1000, "RGBA"⟩

/-- C1: on an empty tile sequence `get_poster` produces no poster at all,
whatever the other arguments: the grid fold leaves `poster = None` and the
function cannot return a canvas.  (In the source this is an uncaught
`AttributeError` from `poster.size` on `None`, not an explicit
`EmptyInputError` — no such error class exists in the repository.) -/
theorem claim_C1_empty_input_no_poster (env : Env) (images_per_row : Int)
    (add_labels : Bool) (font_size : Int) (font_family : String)
    (text_color bg_color : RGBA) (title : Option String)
    (title_height title_font_size : Int) (title_font_family : String)
    (title_text_color title_bg_color : RGBA)
    (horizontal_spacing vertical_spacing : Int) (background_color : RGBA)
    (footer_text : Option String) (footer_height footer_font_size : Int)
    (footer_font_family : String) (footer_text_color footer_bg_color : RGBA)
    (footer_left_margin left_margin right_margin : Int) :
    get_poster env images_per_row [] add_labels font_size font_family
      text_color bg_color title title_height title_font_size title_font_family
      title_text_color title_bg_color horizontal_spacing vertical_spacing
      background_color footer_text footer_height footer_font_size
      footer_font_family footer_text_color footer_bg_color footer_left_margin
      left_margin right_margin = none := by
  unfold get_poster poster_rows grid_fold row_loop
  split <;> rfl

/-- C2: for `N ≥ 1` tiles and grid width `W ≥ 1`, the row-building loop
produces `⌈N / W⌉` rows, consumes the tiles in input order, fills every
row but the last with exactly `W` tiles, and leaves `N mod W` tiles (or
`W` when `W ∣ N`) in the last row; 7 tiles at `W = 3` give rows of sizes
`[3, 3, 1]` built with `[2, 2, 0]` horizontal-merge calls. -/
theorem claim_C2_row_partition (W : Int) (hW : 1 ≤ W) (ps : List String)
    (hps : ps ≠ []) :
    (row_groups W ps).length = (ps.length + (W.toNat - 1)) / W.toNat ∧
    (row_groups W ps).flatten = ps ∧
    (∀ g ∈ (row_groups W ps).dropLast, g.length = W.toNat) ∧
    (∃ g, (row_groups W ps).getLast? = some g ∧
      g.length = (if ps.length % W.toNat = 0 then W.toNat else ps.length % W.toNat)) ∧
    (row_groups 3 ["a1.png", "a2.png", "a3.png", "a4.png", "a5.png", "a6.png",
      "a7.png"]).map List.length = [3, 3, 1] ∧
    row_merge_counts 3 ["a1.png", "a2.png", "a3.png", "a4.png", "a5.png",
      "a6.png", "a7.png"] = [2, 2, 0] := by
  rw [row_groups_eq_chunked W hW ps]
  exact ⟨chunked_length W hW ps, chunked_flatten W ps,
    chunked_dropLast_length W hW ps, chunked_getLast_length W hW ps hps,
    by decide, by decide⟩

theorem claim_C2_witness :
    (row_groups (3 : Int) ["a1.png", "a2.png", "a3.png", "a4.png", "a5.png",
      "a6.png", "a7.png"]).length = 3 := by
  have h := claim_C2_row_partition 3 (by decide)
    ["a1.png", "a2.png", "a3.png", "a4.png", "a5.png", "a6.png", "a7.png"]
    (by decide)
  exact h.1.trans (by decide)

/-- C3: when the grid fold yields a body `g`, the final poster is `g`'s
width plus the left and right margins wide (margins non-negative), with
the height unchanged when no bands are configured; with both a title and
a footer configured the final height is `title_height + g.height +
footer_height`, with no extra gutter between bands and grid. -/
theorem claim_C3_margins_and_bands (env : Env) (images_per_row : Int)
    (image_paths : List String) (add_labels : Bool) (font_size : Int)
    (font_family : String) (text_color bg_color : RGBA) (t f : String)
    (title_height title_font_size : Int) (title_font_family : String)
    (title_text_color title_bg_color : RGBA)
    (horizontal_spacing vertical_spacing : Int) (background_color : RGBA)
    (footer_height footer_font_size : Int) (footer_font_family : String)
    (footer_text_color footer_bg_color : RGBA) (footer_left_margin : Int)
    (left_margin right_margin : Int) (g : Canvas)
    (hW : images_per_row ≠ 0) (ht : t ≠ "") (hf : f ≠ "")
    (hlm : 0 ≤ left_margin) (hrm : 0 ≤ right_margin)
    (hg : grid_fold vertical_spacing (some background_color)
      (poster_rows env images_per_row image_paths add_labels font_size
        font_family text_color horizontal_spacing background_color) = some g) :
    (∃ p, get_poster env images_per_row image_paths add_labels font_size
        font_family text_color bg_color none title_height title_font_size
        title_font_family title_text_color title_bg_color horizontal_spacing
        vertical_spacing background_color none footer_height footer_font_size
        footer_font_family footer_text_color footer_bg_color
        footer_left_margin left_margin right_margin = some p ∧
      p.width = g.width + left_margin + right_margin ∧
      p.height = g.height) ∧
    (∃ p, get_poster env images_per_row image_paths add_labels font_size
        font_family text_color bg_color (some t) title_height title_font_size
        title_font_family title_text_color title_bg_color horizontal_spacing
        vertical_spacing background_color (some f) footer_height
        footer_font_size footer_font_family footer_text_color footer_bg_color
        footer_left_margin left_margin right_margin = some p ∧
      p.width = g.width + left_margin + right_margin ∧
      p.height = title_height + g.height + footer_height) := by
  constructor
  · unfold get_poster
    rw [if_neg hW, hg]
    refine ⟨_, rfl, ?_, ?_⟩ <;>
      by_cases hm : 0 < left_margin ∨ 0 < right_margin <;>
        simp [py_truthy, hm, Canvas.width, Canvas.height] <;> omega
  · unfold get_poster
    rw [if_neg hW, hg]
    refine ⟨_, rfl, ?_, ?_⟩ <;>
      by_cases hm : 0 < left_margin ∨ 0 < right_margin <;>
        simp [py_truthy, ht, hf, hm, Canvas.width, Canvas.height,
          merge_vertically_width, merge_vertically_height,
          create_title_row_width, create_title_row_height,
          create_footer_row_width, create_footer_row_height] <;> omega

theorem claim_C3_witness :
    (get_poster exEnv 2 ["x/Foo.png"] false 40 "Arial" TEXT_COLOR
      TEXT_BACKGROUND_COLOR (some "T") 200 120 "Helvetica-Bold"
      TITLE_TEXT_COLOR TITLE_BACKGROUND_COLOR 0 0 DEFAULT_BACKGROUND_COLOR
      (some "F") 100 30 "Arial" FOOTER_TEXT_COLOR FOOTER_BACKGROUND_COLOR
      40 5 5).map Canvas.height = some 1270 := by
  have h := (claim_C3_margins_and_bands exEnv 2 ["x/Foo.png"] false 40 "Arial"
    TEXT_COLOR TEXT_BACKGROUND_COLOR "T" "F" 200 120 "Helvetica-Bold"
    TITLE_TEXT_COLOR TITLE_BACKGROUND_COLOR 0 0 DEFAULT_BACKGROUND_COLOR
    100 30 "Arial" FOOTER_TEXT_COLOR FOOTER_BACKGROUND_COLOR 40 5 5
    (get_processed_image_from_path exEnv "x/Foo.png")
    (by decide) (by decide) (by decide) (by decide) (by decide)
    (by decide)).2
  obtain ⟨p, hp, hwidth, hheight⟩ := h
  rw [hp, Option.map_some']
  exact congrArg some (hheight.trans (by decide))

/-- C4: captioning keeps the image width and grows the height by the
measured text height plus the text padding and bottom margin; the caption
band is filled with the call's background color and the input image is
pasted at the top-left corner, masked by its own alpha channel exactly
when its mode is RGBA. -/
theorem claim_C4_caption_canvas (env : Env) (image : Canvas) (text : String)
    (font_size : Int) (font_family : String) (text_color bg_color : RGBA)
    (htext : text ≠ "") :
    (add_text_label_to_image env image text font_size font_family text_color
      bg_color).width = image.width ∧
    (add_text_label_to_image env image text font_size font_family text_color
      bg_color).height =
      image.height +
        ((env.bbox (resolve_font env.avail (bold_font_variations font_family)
            (adjusted_font_size font_size text)) text).y1 -
          (env.bbox (resolve_font env.avail (bold_font_variations font_family)
            (adjusted_font_size font_size text)) text).y0) +
        TEXT_PADDING + TEXT_BOTTOM_MARGIN ∧
    (add_text_label_to_image env image text font_size font_family text_color
      bg_color).baseFill = some bg_color ∧
    (add_text_label_to_image env image text font_size font_family text_color
      bg_color).pastes = [(image, 0, 0, image.mode == "RGBA")] := by
  refine ⟨rfl, ?_, rfl, rfl⟩
  simp only [add_text_label_to_image, Canvas.height]
  ring

theorem claim_C4_witness :
    ("United States" : String) ≠ "" ∧
    (add_text_label_to_image exEnv (Canvas.new 675 970 ⟨10, 20, 30, 255⟩)
      "United States" 40 "Arial" TEXT_COLOR TEXT_BACKGROUND_COLOR).height = 1025 := by
  refine ⟨by decide, ?_⟩
  have h := (claim_C4_caption_canvas exEnv (Canvas.new 675 970 ⟨10, 20, 30, 255⟩)
    "United States" 40 "Arial" TEXT_COLOR TEXT_BACKGROUND_COLOR (by decide)).2.1
  exact h.trans (by decide)

/-- C5: the caption font size is picked purely by caption length — at 30
characters or more the base size is scaled by 0.65, at 24 to 29 and at 22
to 23 it is scaled by 0.9, and shorter captions keep the base size;
"United States" keeps the base size and "Democratic Republic of the
Congo" gets the 0.65 scale. -/
theorem claim_C5_font_size_policy (font_size : Int) (text : String) :
    (30 ≤ text.length → adjusted_font_size font_size text = (font_size * 65).fdiv 100) ∧
    (24 ≤ text.length → text.length < 30 →
      adjusted_font_size font_size text = (font_size * 9).fdiv 10) ∧
    (22 ≤ text.length → text.length < 24 →
      adjusted_font_size font_size text = (font_size * 9).fdiv 10) ∧
    (text.length < 22 → adjusted_font_size font_size text = font_size) ∧
    adjusted_font_size font_size "United States" = font_size ∧
    adjusted_font_size font_size "Democratic Republic of the Congo" =
      (font_size * 65).fdiv 100 := by
  have h13 : ("United States" : String).length = 13 := by decide
  have h32 : ("Democratic Republic of the Congo" : String).length = 32 := by decide
  unfold adjusted_font_size
  refine ⟨?_, ?_, ?_, ?_, ?_, ?_⟩
  · intro h; rw [if_pos h]
  · intro h1 h2; rw [if_neg (by omega), if_pos h1]
  · intro h1 h2; rw [if_neg (by omega), if_neg (by omega), if_pos h1]
  · intro h; rw [if_neg (by omega), if_neg (by omega), if_neg (by omega)]
  · rw [h13]; norm_num
  · rw [h32]; norm_num

theorem claim_C5_witness :
    30 ≤ ("Democratic Republic of the Congo" : String).length ∧
    adjusted_font_size 40 "Democratic Republic of the Congo" = 26 := by
  refine ⟨by decide, ?_⟩
  have h := (claim_C5_font_size_policy 40 "Democratic Republic of the Congo").1
    (by decide)
  exact h.trans (by decide)

/-- C6: font resolution tries the candidate list in order with
first-success short-circuit (it returns the truetype load of the first
available candidate), and when no candidate is available — in particular
for a family none of whose generated candidates resolve — it returns the
built-in default font; it always returns a font, for any inputs. -/
theorem claim_C6_font_resolution (avail : String → Bool)
    (candidates : List String) (size : Int) (font_family : String) :
    (resolve_font avail candidates size =
      match candidates.find? avail with
      | some c => Font.truetype c size
      | none => Font.load_default) ∧
    ((∀ c ∈ candidates, avail c = false) →
      resolve_font avail candidates size = Font.load_default) ∧
    ((∀ c ∈ bold_font_variations font_family, avail c = false) →
      resolve_font avail (bold_font_variations font_family) size =
        Font.load_default) := by
  have hfind : ∀ (cs : List String),
      resolve_font avail cs size =
        match cs.find? avail with
        | some c => Font.truetype c size
        | none => Font.load_default := by
    intro cs
    induction cs with
    | nil => rfl
    | cons c rest ih =>
      by_cases h : avail c
      · simp [resolve_font, List.find?, h]
      · simp only [resolve_font, List.find?, h, if_neg]
        simpa [h] using ih
  have hnone : ∀ (cs : List String), (∀ c ∈ cs, avail c = false) →
      resolve_font avail cs size = Font.load_default := by
    intro cs hall
    rw [hfind cs]
    have : cs.find? avail = none := List.find?_eq_none.mpr (by
      intro c hc
      simp [hall c hc])
    rw [this]
  exact ⟨hfind candidates, hnone candidates,
    hnone (bold_font_variations font_family)⟩

theorem claim_C6_witness :
    resolve_font (fun _ => false) (bold_font_variations "NoSuchFamily") 40 =
      Font.load_default := by
  have h := (claim_C6_font_resolution (fun _ => false)
    (bold_font_variations "NoSuchFamily") 40 "NoSuchFamily").2.2
  exact h (by intro c hc; rfl)

/-- C7: the horizontal merge of two canvases with a non-negative gutter
is `left.width + gutter + right.width` wide and `max` of the heights
tall, filled with the given background color, with the left canvas pasted
at (0,0) and the right at `(left.width + gutter, 0)`, each masked by its
own alpha channel exactly when its mode is RGBA. -/
theorem claim_C7_merge_horizontally (im1 im2 : Canvas) (gutter : Int)
    (bg : RGBA) (hg : 0 ≤ gutter) :
    (merge_horizontally im1 im2 gutter (some bg)).width =
      im1.width + gutter + im2.width ∧
    (merge_horizontally im1 im2 gutter (some bg)).height =
      max im1.height im2.height ∧
    (merge_horizontally im1 im2 gutter (some bg)).baseFill = some bg ∧
    (merge_horizontally im1 im2 gutter (some bg)).pastes =
      [(im1, 0, 0, im1.mode == "RGBA"),
       (im2, im1.width + gutter, 0, im2.mode == "RGBA")] :=
  ⟨rfl, rfl, rfl, rfl⟩

theorem claim_C7_witness :
    (0 : Int) ≤ 20 ∧
    (merge_horizontally (Canvas.new 675 970 ⟨0, 0, 0, 255⟩)
      (Canvas.new 675 1025 ⟨1, 1, 1, 255⟩) 20
      (some DEFAULT_BACKGROUND_COLOR)).width = 1370 := by
  refine ⟨by decide, ?_⟩
  have h := (claim_C7_merge_horizontally (Canvas.new 675 970 ⟨0, 0, 0, 255⟩)
    (Canvas.new 675 1025 ⟨1, 1, 1, 255⟩) 20 DEFAULT_BACKGROUND_COLOR
    (by decide)).1
  exact h.trans (by decide)

/-- C8: a row left-folded with the horizontal merge is as tall as its
tallest tile, and the vertical fold of a non-empty row list yields a grid
whose height is the sum of the row heights plus one vertical gutter per
gap between rows, and whose width is the maximum row width. -/
theorem claim_C8_grid_geometry (sp vs : Int) (bg : Option RGBA)
    (tile0 : Canvas) (tiles : List Canvas) (r0 : Canvas) (rs : List Canvas) :
    (tiles.foldl (fun a b => merge_horizontally a b sp bg) tile0).height =
      (tiles.map Canvas.height).foldl max tile0.height ∧
    ∃ p, grid_fold vs bg (r0 :: rs) = some p ∧
      p.height = ((r0 :: rs).map Canvas.height).sum + vs * rs.length ∧
      p.width = ((r0 :: rs).map Canvas.width).foldl max r0.width := by
  constructor
  · simpa using foldl_mergeH_height sp bg id tiles tile0
  · refine ⟨_, grid_fold_cons vs bg r0 rs, ?_, ?_⟩
    · rw [foldl_mergeV_height, List.map_cons, List.sum_cons]
    · rw [foldl_mergeV_width, List.map_cons, List.foldl_cons, max_self]

/-- C9: whatever the source image's dimensions and mode, the processed
tile is the resize to 705x1000 followed by the crop with box
(5, 5, 680, 975), so it is always 675 = 705 - (5 + 25) wide and
970 = 1000 - (5 + 25) tall. -/
theorem claim_C9_tile_dimensions (env : Env) (image_path : String) :
    (get_processed_image_from_path env image_path).width = 675 ∧
    (get_processed_image_from_path env image_path).height = 970 ∧
    (get_processed_image_from_path env image_path).width = 705 - (5 + 25) ∧
    (get_processed_image_from_path env image_path).height = 1000 - (5 + 25) ∧
    get_processed_image_from_path env image_path =
      Canvas.crop (Canvas.resize (Canvas.source (env.openImage image_path))
        705 1000) 5 5 680 975 := by
  refine ⟨?_, ?_, ?_, ?_, rfl⟩ <;>
    norm_num [get_processed_image_from_path, Canvas.width, Canvas.height]

/-- C10: the `bg_color` parameter of `get_poster` is dead — the function
reads `background_color` everywhere (including as the caption band fill)
and never `bg_color` — so two calls differing only in `bg_color` build
structurally identical posters, hence pixel-identical output. -/
theorem claim_C10_bg_color_no_effect (env : Env) (images_per_row : Int)
    (image_paths : List String) (add_labels : Bool) (font_size : Int)
    (font_family : String) (text_color : RGBA) (bg_color bg_color' : RGBA)
    (title : Option String) (title_height title_font_size : Int)
    (title_font_family : String) (title_text_color title_bg_color : RGBA)
    (horizontal_spacing vertical_spacing : Int) (background_color : RGBA)
    (footer_text : Option String) (footer_height footer_font_size : Int)
    (footer_font_family : String) (footer_text_color footer_bg_color : RGBA)
    (footer_left_margin left_margin right_margin : Int) :
    get_poster env images_per_row image_paths add_labels font_size font_family
      text_color bg_color title title_height title_font_size title_font_family
      title_text_color title_bg_color horizontal_spacing vertical_spacing
      background_color footer_text footer_height footer_font_size
      footer_font_family footer_text_color footer_bg_color footer_left_margin
      left_margin right_margin =
    get_poster env images_per_row image_paths add_labels font_size font_family
      text_color bg_color' title title_height title_font_size title_font_family
      title_text_color title_bg_color horizontal_spacing vertical_spacing
      background_color footer_text footer_height footer_font_size
      footer_font_family footer_text_color footer_bg_color footer_left_margin
      left_margin right_margin := rfl
